import Mathlib

/-!
Shallow embedding of the job-queue / worker / rate-limiter / fetch-retry core
of the `forkthelaw` crawler (src/database.py, src/worker.py, src/rate_limiter.py,
src/scraper.py, src/cli.py).

The SQLite `job_queue` table is a list of `Job` rows, `job_results` a list of
`JobResult` rows.  Timestamps are naturals (abstract clock ticks passed in
explicitly where the code calls `CURRENT_TIMESTAMP` / `time.time()`).
-/

namespace ForkTheLaw

/-- A row of the `job_queue` table (src/database.py, `init_database`). -/
structure Job where
  id : Nat
  job_type : String
  url : String
  params : Option String
  priority : Int
  created_at : Nat
  attempts : Nat
  last_attempt_at : Option Nat
  status : String
  deriving Repr, DecidableEq

/-- A row of the `job_results` table (src/database.py, `init_database`). -/
structure JobResult where
  job_id : Nat
  status : String
  result : Option String
  error : Option String
  deriving Repr, DecidableEq

/-- The mutable database state that the queue operations touch:
`job_queue` rows, `job_results` rows, and the AUTOINCREMENT counter. -/
structure DB where
  jobs : List Job
  results : List JobResult
  nextId : Nat
  deriving Repr, DecidableEq

/-- `True` when the table already holds a row with this `(job_type, url)`
dedup key — the `UNIQUE(job_type, url)` constraint of `job_queue`. -/
def hasKey (q : List Job) (jt u : String) : Bool :=
  q.any fun j => j.job_type = jt && j.url = u

/-- Number of rows with a given `(job_type, url)` key. -/
def countKey (q : List Job) (jt u : String) : Nat :=
  (q.filter fun j => j.job_type = jt && j.url = u).length

/-- `Database.add_job` (src/database.py:208-221): `INSERT INTO job_queue
(job_type, url, params_json, priority) VALUES (?,?,?,?)`; the new row gets
`attempts = 0`, `status = 'pending'`, `created_at = CURRENT_TIMESTAMP`.
On the `UNIQUE(job_type, url)` violation the `sqlite3.IntegrityError` is
caught and `None` is returned, leaving the table unchanged. -/
def add_job (db : DB) (jt u : String) (params : Option String) (priority : Int)
    (now : Nat) : Option Nat × DB :=
  if hasKey db.jobs jt u then (none, db)
  else
    (some db.nextId,
     { db with
        jobs := db.jobs ++
          [{ id := db.nextId, job_type := jt, url := u, params := params,
             priority := priority, created_at := now, attempts := 0,
             last_attempt_at := none, status := "pending" }],
        nextId := db.nextId + 1 })

/-- `UPDATE job_queue SET status = ? WHERE id = ?`. -/
def setJobStatus (q : List Job) (job_id : Nat) (s : String) : List Job :=
  q.map fun k => if k.id = job_id then { k with status := s } else k

/-- A job row is eligible for claiming: `status = 'pending' AND attempts < 3`
(the WHERE clause of `Database.get_next_job`, src/database.py:230). -/
def eligible (j : Job) : Bool :=
  j.status = "pending" && j.attempts < 3

/-- `a` strictly precedes `b` in `ORDER BY priority DESC, created_at ASC`
(src/database.py:231). -/
def keyLt (a b : Job) : Prop :=
  b.priority < a.priority ∨ (a.priority = b.priority ∧ a.created_at < b.created_at)

instance (a b : Job) : Decidable (keyLt a b) := by
  unfold keyLt; infer_instance

/-- Scan of the eligible rows keeping the first row that is minimal in the
`ORDER BY priority DESC, created_at ASC` order — the row `LIMIT 1` returns
(SQLite emits rows of equal key in table order, so ties keep the earlier row). -/
def pickBest : Option Job → List Job → Option Job
  | acc, [] => acc
  | none, j :: rest => pickBest (some j) rest
  | some a, j :: rest => pickBest (some (if keyLt j a then j else a)) rest

/-- The row `SELECT ... WHERE status = 'pending' AND attempts < 3 ORDER BY
priority DESC, created_at ASC LIMIT 1` returns, if any. -/
def selectJob (q : List Job) : Option Job :=
  pickBest none (q.filter eligible)

/-- The record `Database.get_next_job` returns to the caller: the dict
`{'id', 'job_type', 'url', 'params', 'attempts'}` built from the SELECTed
row (src/database.py:244-250) — note `attempts` is the value read by the
SELECT, before the UPDATE increments it. -/
structure ClaimedJob where
  id : Nat
  job_type : String
  url : String
  params : Option String
  attempts : Nat
  deriving Repr, DecidableEq

/-- Build the returned record from the SELECTed row. -/
def mkClaimed (j : Job) : ClaimedJob :=
  { id := j.id, job_type := j.job_type, url := j.url, params := j.params,
    attempts := j.attempts }

/-- The `UPDATE job_queue SET status = 'processing', last_attempt_at =
CURRENT_TIMESTAMP, attempts = attempts + 1 WHERE id = ?` step of
`Database.get_next_job` (src/database.py:238-243). -/
def claimUpdate (db : DB) (job_id : Nat) (now : Nat) : DB :=
  { db with
      jobs := db.jobs.map fun k =>
        if k.id = job_id then
          { k with status := "processing", attempts := k.attempts + 1,
                   last_attempt_at := some now }
        else k }

/-- `Database.get_next_job` (src/database.py:223-251): SELECT the best
eligible row, then UPDATE it to `processing` with `attempts + 1`, returning
the record built from the values the SELECT read. -/
def get_next_job (db : DB) (now : Nat) : Option ClaimedJob × DB :=
  match selectJob db.jobs with
  | none => (none, db)
  | some j => (some (mkClaimed j), claimUpdate db j.id now)

/-- `Database.complete_job` (src/database.py:253-271): sets the job's status
to `'completed'` when called with `status = 'success'` and to `'failed'`
otherwise, and always INSERTs one `job_results` row carrying the raw
`status` argument. -/
def complete_job (db : DB) (job_id : Nat) (status : String)
    (result : Option String) (error : Option String) : DB :=
  let final := if status = "success" then "completed" else "failed"
  { db with
      jobs := setJobStatus db.jobs job_id final,
      results := db.results ++
        [{ job_id := job_id, status := status, result := result, error := error }] }

/-- `Database.retry_job` (src/database.py:273-281): `UPDATE job_queue SET
status = 'pending' WHERE id = ?`.  No `job_results` row is written. -/
def retry_job (db : DB) (job_id : Nat) : DB :=
  { db with jobs := setJobStatus db.jobs job_id "pending" }

/-- Number of `job_queue` rows whose status equals `s`. -/
def countStatus (db : DB) (s : String) : Nat :=
  (db.jobs.filter fun j => j.status = s).length

/-- `SELECT COUNT(*) FROM job_results WHERE status = 'success'`
(src/database.py:294). -/
def successResults (db : DB) : Nat :=
  (db.results.filter fun r => r.status = "success").length

/-- The distinct statuses present in `job_queue`, in first-appearance order —
the keys the `GROUP BY status` query yields. -/
def statusKeys (q : List Job) : List String :=
  (q.map fun j => j.status).dedup

/-- The dict built from `SELECT status, COUNT(*) ... GROUP BY status`
(src/database.py:287-292), as an association list. -/
def baseStats (db : DB) : List (String × Nat) :=
  (statusKeys db.jobs).map fun s => (s, countStatus db s)

/-- `stats[k] = v` on a Python dict modelled as an association list:
overwrite the entry when the key is present, append it otherwise. -/
def setStat (l : List (String × Nat)) (k : String) (v : Nat) : List (String × Nat) :=
  if l.any fun p => p.1 = k then
    l.map fun p => if p.1 = k then (k, v) else p
  else l ++ [(k, v)]

/-- `Database.get_queue_stats` (src/database.py:283-297): the `GROUP BY
status` counts, after which `stats['completed']` is overwritten with the
count of `'success'` rows in `job_results`. -/
def get_queue_stats (db : DB) : List (String × Nat) :=
  setStat (baseStats db) "completed" (successResults db)

/-- `stats.get(s, 0)` — how every consumer of the stats dict reads it
(src/worker.py:180-183, 200-201). -/
def statsGet (l : List (String × Nat)) (s : String) : Nat :=
  match l.find? fun p => p.1 = s with
  | some p => p.2
  | none => 0

/-- `reset_stuck_jobs` (src/cli.py:152-163): `UPDATE job_queue SET status =
'pending', last_attempt_at = NULL WHERE status = 'processing'`. -/
def reset_stuck_jobs (db : DB) : DB :=
  { db with
      jobs := db.jobs.map fun j =>
        if j.status = "processing" then
          { j with status := "pending", last_attempt_at := none }
        else j }

/-! ## Worker (src/worker.py) -/

/-- What `handler.handle(job)` came back with, as `Worker.process_job` reads
it: a dict whose `'status'` is `'success'` or not (with an error string), or
an exception escaping the dispatch (src/worker.py:84-118). -/
inductive Outcome where
  | success (result : Option String)
  | failure (error : String)
  | exn (msg : String)
  deriving Repr, DecidableEq

/-- `Worker.process_job` (src/worker.py:71-118), the completion half: on a
successful handler outcome, `complete_job(job_id, 'success', result)`; on a
failed outcome or an exception, `retry_job(job_id)` when
`job.get('attempts', 0) < 3` — the `attempts` value of the claimed record,
i.e. the pre-increment value the SELECT read — and
`complete_job(job_id, 'failed', error=...)` otherwise. -/
def process_job (db : DB) (job : ClaimedJob) (outcome : Outcome) : DB :=
  match outcome with
  | .success r => complete_job db job.id "success" r none
  | .failure e =>
      if job.attempts < 3 then retry_job db job.id
      else complete_job db job.id "failed" none (some e)
  | .exn m =>
      if job.attempts < 3 then retry_job db job.id
      else complete_job db job.id "failed" none
        (some ("Exception processing job: " ++ m))

/-- One iteration of the `Worker.run` loop (src/worker.py:47-63): claim the
next job; if there is one, dispatch the handler and route its outcome through
`process_job`; otherwise leave the queue untouched. -/
def workerStep (db : DB) (now : Nat) (handler : ClaimedJob → Outcome) : DB :=
  match get_next_job db now with
  | (none, db') => db'
  | (some job, db') => process_job db' job (handler job)

/-! ## Non-atomic claim (src/database.py:223-251 as two steps)

`Database.get_next_job` issues a plain `SELECT` and then a separate
`UPDATE` on the same connection.  The `SELECT` runs outside any write lock
(sqlite3 starts a transaction only at the first DML statement), so two
concurrent callers can both execute their `SELECT` against the same
committed state before either `UPDATE` commits.  The two phases are embedded
separately so that such an interleaving can be expressed. -/

/-- The `SELECT` phase of `Database.get_next_job`, reading the committed
state visible at that moment. -/
def selectPhase (db : DB) : Option ClaimedJob :=
  (selectJob db.jobs).map mkClaimed

/-- The `UPDATE` phase of `Database.get_next_job` (serialized by SQLite's
write lock, so the two updates apply one after the other). -/
def updatePhase (db : DB) (job_id : Nat) (now : Nat) : DB :=
  claimUpdate db job_id now

/-! ## RateLimiter (src/rate_limiter.py) -/

/-- `RateLimiter` state: `delay_seconds` plus the `last_request_time`
defaultdict (missing domain reads as `0`).  Time is in abstract ticks. -/
structure RL where
  delay_seconds : Nat
  last_request_time : List (String × Nat)
  deriving Repr, DecidableEq

/-- Read of the `defaultdict(float)`: `0` for a missing domain (the same
dict-read-with-default-0 as `statsGet`). -/
def rlGet (l : List (String × Nat)) (d : String) : Nat :=
  statsGet l d

/-- Write `last_request_time[domain] = t` (the same dict assignment as
`setStat`). -/
def rlSet (l : List (String × Nat)) (d : String) (t : Nat) : List (String × Nat) :=
  setStat l d t

/-- `RateLimiter.wait_if_needed(domain)` (src/rate_limiter.py:25-41), run to
completion starting at instant `now` (the value `time.time()` returns on
entry, assumed `≥` every recorded timestamp): returns the sleep it performs
and the updated state.  The code sleeps `delay_seconds - elapsed` when
`elapsed < delay_seconds` and then stores the post-sleep `time.time()`,
i.e. `now + sleep`.  The whole body runs under the single `self.lock`, the
sleep included. -/
def wait_if_needed (st : RL) (d : String) (now : Nat) : Nat × RL :=
  let last := rlGet st.last_request_time d
  let sleep := if now - last < st.delay_seconds then st.delay_seconds - (now - last) else 0
  (sleep, { st with last_request_time := rlSet st.last_request_time d (now + sleep) })

/-- Completion instant of a `wait_if_needed` call entered at `now`. -/
def waitDone (st : RL) (d : String) (now : Nat) : Nat :=
  now + (wait_if_needed st d now).1

/-- Two overlapping calls under the single mutex (src/rate_limiter.py:32):
caller A enters `wait_if_needed(d1)` at `tA` holding the lock until its call
(sleep included) finishes; caller B arrives for `wait_if_needed(d2)` at `tB ≥
tA` and can only acquire the lock when A releases it.  Returns B's completion
instant. -/
def lockedPairDone (st : RL) (d1 d2 : String) (tA tB : Nat) : Nat :=
  let (sA, st1) := wait_if_needed st d1 tA
  let startB := max tB (tA + sA)
  waitDone st1 d2 startB

/-! ## Fetcher (src/scraper.py:41-98) -/

/-- Outcome of one `self.session.get` attempt, as the `try/except` of
`Scraper.fetch` classifies it. -/
inductive FetchStep where
  | ok (body : String)
  | httpError (code : Nat)
  | timeout
  | connError
  | otherExc
  deriving Repr, DecidableEq

/-- The `for attempt in range(max_retries)` loop of `Scraper.fetch`
(src/scraper.py:55-98), with the transport abstracted as the outcome of each
attempt.  `attempt` is the current index; `remaining` counts the iterations
still allowed after this one (`remaining = 0` on the last iteration, i.e.
`attempt == max_retries - 1`).  Returns `(result, attempts made, backoff
sleeps performed in order)`:
* success returns the body;
* 404 returns `None` at once, no sleep;
* 429 sleeps `(attempt+1)*30` and retries, with no last-iteration check —
  the loop simply ends and falls through to the final `return None`;
* other HTTP errors, timeouts and unexpected exceptions return `None` on the
  last iteration and otherwise sleep `(attempt+1)*5` and retry;
* connection errors likewise with `(attempt+1)*10`. -/
def fetchFrom (transport : Nat → FetchStep) :
    Nat → Nat → List Nat → Option String × Nat × List Nat
  | attempt, 0, sleeps => (none, attempt, sleeps)
  | attempt, remaining + 1, sleeps =>
    match transport attempt with
    | .ok b => (some b, attempt + 1, sleeps)
    | .httpError c =>
        if c = 404 then (none, attempt + 1, sleeps)
        else if c = 429 then
          fetchFrom transport (attempt + 1) remaining (sleeps ++ [(attempt + 1) * 30])
        else if remaining = 0 then (none, attempt + 1, sleeps)
        else fetchFrom transport (attempt + 1) remaining (sleeps ++ [(attempt + 1) * 5])
    | .timeout =>
        if remaining = 0 then (none, attempt + 1, sleeps)
        else fetchFrom transport (attempt + 1) remaining (sleeps ++ [(attempt + 1) * 5])
    | .connError =>
        if remaining = 0 then (none, attempt + 1, sleeps)
        else fetchFrom transport (attempt + 1) remaining (sleeps ++ [(attempt + 1) * 10])
    | .otherExc =>
        if remaining = 0 then (none, attempt + 1, sleeps)
        else fetchFrom transport (attempt + 1) remaining (sleeps ++ [(attempt + 1) * 5])

/-- `Scraper.fetch(url, max_retries=3)` over an abstract transport.  The
returned `Option String` is the Python return value: `Some body` for a
response, `none` both for 404 ("not found") and for exhausted retries
("failed") — the code returns the same `None` in both cases. -/
def fetch (transport : Nat → FetchStep) (max_retries : Nat) :
    Option String × Nat × List Nat :=
  fetchFrom transport 0 max_retries []

/-! ## Concrete instances used to evaluate the model -/

/-- A fresh queue holding the single seed job `('t', 'u')`. -/
def oneJobDB : DB :=
  { jobs := [{ id := 1, job_type := "t", url := "u", params := none, priority := 5,
               created_at := 0, attempts := 0, last_attempt_at := none,
               status := "pending" }],
    results := [], nextId := 2 }

/-- A handler that fails on every attempt. -/
def alwaysFail : ClaimedJob → Outcome := fun _ => Outcome.failure "boom"

/-- A handler that fails on the first two attempts (claimed records carrying
`attempts = 0` and `1`) and succeeds on the third (`attempts = 2`). -/
def failTwice : ClaimedJob → Outcome := fun j =>
  if j.attempts < 2 then Outcome.failure "boom" else Outcome.success (some "ok")

/-- Three worker iterations over `oneJobDB` with an always-failing handler. -/
def threeFailsDB : DB :=
  workerStep (workerStep (workerStep oneJobDB 1 alwaysFail) 2 alwaysFail) 3 alwaysFail

/-- Three worker iterations over `oneJobDB` with `failTwice`. -/
def failTwiceDB : DB :=
  workerStep (workerStep (workerStep oneJobDB 1 failTwice) 2 failTwice) 3 failTwice

/-- Queue for the interleaved-claim scenario: one eligible pending job. -/
def raceDB : DB :=
  { jobs := [{ id := 1, job_type := "t", url := "u", params := none, priority := 5,
               created_at := 0, attempts := 0, last_attempt_at := none,
               status := "pending" }],
    results := [], nextId := 2 }

/-- Queue state for the completion scenarios: job 1 is `processing` with one
recorded attempt, and the results log is empty. -/
def processingDB : DB :=
  { jobs := [{ id := 1, job_type := "t", url := "u", params := none, priority := 5,
               created_at := 0, attempts := 1, last_attempt_at := some 1,
               status := "processing" }],
    results := [], nextId := 2 }

/-- The claimed record the worker holds in the completion scenarios (the
`attempts` field is the pre-increment snapshot, here 0). -/
def processingCJ : ClaimedJob :=
  { id := 1, job_type := "t", url := "u", params := none, attempts := 0 }

/-- An empty database. -/
def emptyDB : DB := { jobs := [], results := [], nextId := 1 }

/-- Queue with two eligible jobs: job 2 has the higher priority. -/
def twoJobsDB : DB :=
  { jobs := [{ id := 1, job_type := "t", url := "u1", params := none, priority := 5,
               created_at := 0, attempts := 0, last_attempt_at := none,
               status := "pending" },
             { id := 2, job_type := "t", url := "u2", params := none, priority := 9,
               created_at := 3, attempts := 0, last_attempt_at := none,
               status := "pending" }],
    results := [], nextId := 3 }

/-- The record a claim of `twoJobsDB` returns: job 2 with the pre-increment
`attempts` snapshot 0. -/
def twoJobsCJ : ClaimedJob :=
  { id := 2, job_type := "t", url := "u2", params := none, attempts := 0 }

/-- `twoJobsDB` after job 2 was claimed at instant 7. -/
def twoJobsClaimed : DB := claimUpdate twoJobsDB 2 7

/-- A state in which the `job_queue` holds one `completed` row but the
`job_results` log holds no `'success'` row (reachable e.g. by calling
`complete_job` twice for one job: two success rows, one completed row — here
the discrepancy is in the other direction, one row, no log entry). -/
def statsDB : DB :=
  { jobs := [{ id := 1, job_type := "t", url := "u", params := none, priority := 5,
               created_at := 0, attempts := 1, last_attempt_at := some 1,
               status := "completed" }],
    results := [], nextId := 2 }

/-- RateLimiter with `delay_seconds = 10` whose last request on domain `a`
happened at instant 100. -/
def rl100 : RL := { delay_seconds := 10, last_request_time := [("a", 100)] }

/-- A queue with one job of each status, for the reset sweep. -/
def fourJobsDB : DB :=
  { jobs := [{ id := 1, job_type := "t", url := "u1", params := none, priority := 5,
               created_at := 0, attempts := 2, last_attempt_at := some 4,
               status := "processing" },
             { id := 2, job_type := "t", url := "u2", params := none, priority := 5,
               created_at := 1, attempts := 1, last_attempt_at := some 5,
               status := "completed" },
             { id := 3, job_type := "t", url := "u3", params := none, priority := 5,
               created_at := 2, attempts := 3, last_attempt_at := some 6,
               status := "failed" },
             { id := 4, job_type := "t", url := "u4", params := none, priority := 5,
               created_at := 3, attempts := 0, last_attempt_at := none,
               status := "pending" }],
    results := [], nextId := 5 }

/-- A transport whose every attempt comes back `404 Not Found`. -/
def tr404 : Nat → FetchStep := fun _ => FetchStep.httpError 404

/-- A transport whose every attempt times out. -/
def trTimeout : Nat → FetchStep := fun _ => FetchStep.timeout

/-! ## Order lemmas for the `ORDER BY priority DESC, created_at ASC` scan -/

lemma keyLt_irrefl (a : Job) : ¬ keyLt a a := by
  unfold keyLt; omega

lemma keyLt_trans {a b c : Job} (h1 : keyLt a b) (h2 : keyLt b c) : keyLt a c := by
  unfold keyLt at h1 h2 ⊢; omega

lemma keyLt_of_keyLt_of_not {a j r : Job} (h1 : keyLt j r) (h2 : ¬ keyLt j a) :
    keyLt a r := by
  unfold keyLt at h1 h2 ⊢; omega

lemma pickBest_isSome (l : List Job) (a : Job) :
    (pickBest (some a) l).isSome = true := by
  induction l generalizing a with
  | nil => rfl
  | cons j rest ih => exact ih _

lemma pickBest_mem (l : List Job) (a r : Job)
    (h : pickBest (some a) l = some r) : r = a ∨ r ∈ l := by
  induction l generalizing a with
  | nil =>
      simp only [pickBest, Option.some.injEq] at h
      exact Or.inl h.symm
  | cons j rest ih =>
      simp only [pickBest] at h
      rcases ih _ h with h' | h'
      · by_cases hlt : keyLt j a
        · simp only [hlt, if_pos] at h'
          exact Or.inr (h' ▸ List.mem_cons_self j rest)
        · simp only [hlt, if_neg, not_false_iff] at h'
          exact Or.inl h'
      · exact Or.inr (List.mem_cons_of_mem _ h')

lemma pickBest_best (l : List Job) (a r : Job)
    (h : pickBest (some a) l = some r) :
    ¬ keyLt a r ∧ ∀ x ∈ l, ¬ keyLt x r := by
  induction l generalizing a with
  | nil =>
      simp only [pickBest, Option.some.injEq] at h
      subst h
      exact ⟨keyLt_irrefl _, by simp⟩
  | cons j rest ih =>
      simp only [pickBest] at h
      obtain ⟨hacc, hrest⟩ := ih _ h
      by_cases hlt : keyLt j a
      · simp only [hlt, if_pos] at hacc
        refine ⟨fun har => hacc (keyLt_trans hlt har), ?_⟩
        intro x hx
        rcases List.mem_cons.mp hx with rfl | hx'
        · exact hacc
        · exact hrest x hx'
      · simp only [hlt, if_neg, not_false_iff] at hacc
        refine ⟨hacc, ?_⟩
        intro x hx
        rcases List.mem_cons.mp hx with rfl | hx'
        · exact fun hjr => hacc (keyLt_of_keyLt_of_not hjr hlt)
        · exact hrest x hx'

lemma selectJob_mem {q : List Job} {j : Job} (h : selectJob q = some j) :
    j ∈ q ∧ eligible j = true := by
  unfold selectJob at h
  have hmem : j ∈ q.filter eligible := by
    cases hf : q.filter eligible with
    | nil => rw [hf] at h; exact absurd h (by simp [pickBest])
    | cons a rest =>
        rw [hf] at h
        simp only [pickBest] at h
        rcases pickBest_mem rest a j h with rfl | h'
        · exact List.mem_cons_self _ _
        · exact List.mem_cons_of_mem _ h'
  exact ⟨(List.mem_filter.mp hmem).1, (List.mem_filter.mp hmem).2⟩

lemma selectJob_best {q : List Job} {j : Job} (h : selectJob q = some j) :
    ∀ x ∈ q, eligible x = true → ¬ keyLt x j := by
  intro x hx hex
  unfold selectJob at h
  have hxf : x ∈ q.filter eligible := List.mem_filter.mpr ⟨hx, hex⟩
  cases hf : q.filter eligible with
  | nil => rw [hf] at hxf; exact absurd hxf (List.not_mem_nil x)
  | cons a rest =>
      rw [hf] at h
      simp only [pickBest] at h
      obtain ⟨ha, hrest⟩ := pickBest_best rest a j h
      rw [hf] at hxf
      rcases List.mem_cons.mp hxf with rfl | hx'
      · exact ha
      · exact hrest x hx'

lemma selectJob_none {q : List Job} (h : selectJob q = none) :
    ∀ x ∈ q, eligible x = false := by
  intro x hx
  by_contra hne
  have hex : eligible x = true := by
    cases he : eligible x with
    | false => exact absurd he hne
    | true => rfl
  have hxf : x ∈ q.filter eligible := List.mem_filter.mpr ⟨hx, hex⟩
  unfold selectJob at h
  cases hf : q.filter eligible with
  | nil => rw [hf] at hxf; exact absurd hxf (List.not_mem_nil x)
  | cons a rest =>
      rw [hf] at h
      simp only [pickBest] at h
      have := pickBest_isSome rest a
      rw [h] at this
      exact absurd this (by simp)

lemma selectJob_some_of_eligible {q : List Job}
    (h : ∃ x ∈ q, eligible x = true) : ∃ j, selectJob q = some j := by
  cases hs : selectJob q with
  | some j => exact ⟨j, rfl⟩
  | none =>
      obtain ⟨x, hx, hex⟩ := h
      have := selectJob_none hs x hx
      rw [hex] at this
      exact absurd this (by simp)

/-! ## Dict lemmas (the association-list model of Python dicts) -/

lemma find_set_self {k : String} {v : Nat} :
    ∀ l : List (String × Nat), (l.any fun p => p.1 = k) = true →
      List.find? (fun p => p.1 = k) (l.map fun p => if p.1 = k then (k, v) else p) =
        some (k, v)
  | q :: t, hany => by
      by_cases hq : q.1 = k
      · rw [List.map_cons, if_pos hq]
        exact List.find?_cons_of_pos _ (by simp)
      · rw [List.map_cons, if_neg hq]
        rw [List.find?_cons_of_neg _ (by simp [hq])]
        have hany' : (t.any fun p => p.1 = k) = true := by
          simpa [List.any_cons, hq] using hany
        exact find_set_self t hany'

lemma find_set_ne {k k' : String} {v : Nat} (h : k ≠ k') :
    ∀ l : List (String × Nat),
      List.find? (fun p => p.1 = k') (l.map fun p => if p.1 = k then (k, v) else p) =
        List.find? (fun p => p.1 = k') l
  | [] => rfl
  | q :: t => by
      by_cases hq : q.1 = k
      · rw [List.map_cons, if_pos hq]
        rw [List.find?_cons_of_neg _ (by simp [h]),
            List.find?_cons_of_neg _ (by simp [hq, h])]
        exact find_set_ne h t
      · rw [List.map_cons, if_neg hq]
        by_cases hq' : q.1 = k'
        · rw [List.find?_cons_of_pos _ (by simp [hq']),
              List.find?_cons_of_pos _ (by simp [hq'])]
        · rw [List.find?_cons_of_neg _ (by simp [hq']),
              List.find?_cons_of_neg _ (by simp [hq'])]
          exact find_set_ne h t

lemma statsGet_setStat_self (l : List (String × Nat)) (k : String) (v : Nat) :
    statsGet (setStat l k v) k = v := by
  unfold setStat statsGet
  by_cases hany : (l.any fun p => p.1 = k) = true
  · rw [if_pos hany, find_set_self l hany]
  · rw [if_neg hany, List.find?_append]
    have hfalse : (l.any fun p => p.1 = k) = false :=
      Bool.eq_false_iff.mpr hany
    have hnone : List.find? (fun p => p.1 = k) l = none := by
      rw [List.find?_eq_none]
      exact List.any_eq_false.mp hfalse
    rw [hnone]
    simp [List.find?]

lemma statsGet_setStat_ne (l : List (String × Nat)) (k k' : String) (v : Nat)
    (h : k ≠ k') : statsGet (setStat l k v) k' = statsGet l k' := by
  unfold setStat statsGet
  by_cases hany : (l.any fun p => p.1 = k) = true
  · rw [if_pos hany, find_set_ne h l]
  · rw [if_neg hany, List.find?_append]
    cases hf : List.find? (fun p => p.1 = k') l with
    | some p => simp [hf]
    | none => simp [hf, List.find?, h]

lemma find_keyed_map_mem (f : String → Nat) (s : String) :
    ∀ l : List String, s ∈ l →
      List.find? (fun p => p.1 = s) (l.map fun t => (t, f t)) = some (s, f s)
  | t :: rest, hmem => by
      by_cases ht : t = s
      · subst ht
        rw [List.map_cons]
        exact List.find?_cons_of_pos _ (by simp)
      · rw [List.map_cons, List.find?_cons_of_neg _ (by simp [ht])]
        have : s ∈ rest := by
          rcases List.mem_cons.mp hmem with rfl | hr
          · exact absurd rfl ht
          · exact hr
        exact find_keyed_map_mem f s rest this

lemma find_keyed_map_not_mem (f : String → Nat) (s : String) :
    ∀ l : List String, s ∉ l →
      List.find? (fun p => p.1 = s) (l.map fun t => (t, f t)) = none
  | [], _ => rfl
  | t :: rest, hmem => by
      have ht : t ≠ s := fun he => hmem (he ▸ List.mem_cons_self t rest)
      rw [List.map_cons, List.find?_cons_of_neg _ (by simp [ht])]
      exact find_keyed_map_not_mem f s rest (fun hr => hmem (List.mem_cons_of_mem _ hr))

/-- Looking a status up in the `GROUP BY status` dict (with default 0) gives
exactly the number of `job_queue` rows with that status. -/
lemma statsGet_baseStats (db : DB) (s : String) :
    statsGet (baseStats db) s = countStatus db s := by
  unfold baseStats
  by_cases hmem : s ∈ statusKeys db.jobs
  · unfold statsGet
    rw [find_keyed_map_mem _ _ _ hmem]
  · unfold statsGet
    rw [find_keyed_map_not_mem _ _ _ hmem]
    have hzero : countStatus db s = 0 := by
      unfold countStatus
      have : ∀ j ∈ db.jobs, ¬ (j.status = s : Bool) = true := by
        intro j hj hjs
        exact hmem (by
          unfold statusKeys
          rw [List.mem_dedup]
          exact List.mem_map.mpr ⟨j, hj, by simpa using hjs⟩)
      rw [List.filter_eq_nil_iff.mpr this]
      rfl
    rw [hzero]

/-! ## Key-counting lemmas for the dedup constraint -/

lemma countKey_append_hit (q : List Job) (j : Job) (jt u : String)
    (hj : (j.job_type = jt && j.url = u) = true) :
    countKey (q ++ [j]) jt u = countKey q jt u + 1 := by
  unfold countKey
  rw [List.filter_append]
  simp [hj]

lemma countKey_eq_zero_of_not_hasKey {q : List Job} {jt u : String}
    (h : hasKey q jt u = false) : countKey q jt u = 0 := by
  unfold countKey
  unfold hasKey at h
  rw [List.filter_eq_nil_iff.mpr (List.any_eq_false.mp h)]
  rfl

lemma hasKey_setJobStatus (q : List Job) (job_id : Nat) (s : String)
    (jt u : String) : hasKey (setJobStatus q job_id s) jt u = hasKey q jt u := by
  unfold hasKey setJobStatus
  rw [List.any_map]
  congr 1
  funext k
  by_cases hk : k.id = job_id <;> simp [Function.comp, hk]

lemma countKey_setJobStatus (q : List Job) (job_id : Nat) (s : String)
    (jt u : String) : countKey (setJobStatus q job_id s) jt u = countKey q jt u := by
  unfold countKey setJobStatus
  rw [List.filter_map, List.length_map]
  congr 1
  apply List.filter_congr
  intro k _
  by_cases hk : k.id = job_id <;> simp [hk]

/-- Every row of `setJobStatus q job_id s` that carries `job_id` has status
`s` (the `UPDATE ... WHERE id = ?` hit rows). -/
lemma status_of_mem_setJobStatus {q : List Job} {job_id : Nat} {s : String}
    {j : Job} (hj : j ∈ setJobStatus q job_id s) (hid : j.id = job_id) :
    j.status = s := by
  unfold setJobStatus at hj
  obtain ⟨k, _, hk⟩ := List.mem_map.mp hj
  by_cases hkid : k.id = job_id
  · rw [if_pos hkid] at hk
    rw [← hk]
  · rw [if_neg hkid] at hk
    exact absurd (hk ▸ hid) hkid

/-! ## Claim theorems -/

/-- Claim C1.  The claim says a job whose handler fails on every attempt is
in terminal `failed` status after 3 failed claims.  The code disagrees:
`Worker.process_job` gates the give-up branch on `job.get('attempts', 0) < 3`,
where the claimed record's `attempts` is the value `get_next_job` read
*before* its own increment (always ≤ 2 for a claimable job), so the branch is
unreachable and the thrice-failed job is left in status `pending` with
`attempts = 3` — never re-claimed (the claim filter requires `attempts < 3`)
but never marked `failed`, and with an empty results log.  The
fails-twice-then-succeeds half of the claim does hold: final status
`completed` with `attempts = 3`. -/
theorem c1_attempts_off_by_one :
    threeFailsDB.jobs =
      [{ id := 1, job_type := "t", url := "u", params := none, priority := 5,
         created_at := 0, attempts := 3, last_attempt_at := some 3,
         status := "pending" }] ∧
    (get_next_job threeFailsDB 4).1 = none ∧
    threeFailsDB.results = [] ∧
    failTwiceDB.jobs =
      [{ id := 1, job_type := "t", url := "u", params := none, priority := 5,
         created_at := 0, attempts := 3, last_attempt_at := some 3,
         status := "completed" }] ∧
    failTwiceDB.results =
      [{ job_id := 1, status := "success", result := some "ok", error := none }] := by
  decide

/-- Claim C2.  `Database.get_next_job` runs a plain `SELECT` and then a
separate `UPDATE`; the `SELECT` takes no lock, so two concurrent callers can
both run their `SELECT` against the same committed state before either
`UPDATE` commits.  In that schedule, over a queue holding exactly one
eligible pending job, *both* callers receive the job record (`selectPhase`
returns it to each) and the serialized updates then bump `attempts` by 2 —
refuting "exactly one caller receives the job". -/
theorem c2_nonatomic_claim :
    selectPhase raceDB =
      some { id := 1, job_type := "t", url := "u", params := none, attempts := 0 } ∧
    (updatePhase (updatePhase raceDB 1 5) 1 6).jobs =
      [{ id := 1, job_type := "t", url := "u", params := none, priority := 5,
         created_at := 0, attempts := 2, last_attempt_at := some 6,
         status := "processing" }] := by
  decide

/-- Claim C3, counterexample.  On the failure-with-retry branch
(`Worker.process_job` → `Database.retry_job`) no `job_results` row is
appended, refuting "in every one of these branches exactly one JobResult row
is appended". -/
theorem c3_retry_appends_no_result :
    ¬ ((process_job processingDB processingCJ (Outcome.failure "boom")).results.length
        = processingDB.results.length + 1) := by
  decide

/-- Claim C3, amended.  Completing a claimed job: on success the job (the
rows carrying its id) transitions to `completed` and exactly one JobResult
row is appended; on failure with the claimed record's `attempts` snapshot
below 3 the job transitions to `pending` and *no* JobResult row is appended;
on failure otherwise the job transitions to `failed` and exactly one
JobResult row is appended. -/
theorem c3_complete_branches (db : DB) (cj : ClaimedJob) (r : Option String)
    (e : String) :
    ((process_job db cj (Outcome.success r)).results
        = db.results ++ [{ job_id := cj.id, status := "success", result := r, error := none }]
      ∧ ∀ j ∈ (process_job db cj (Outcome.success r)).jobs,
          j.id = cj.id → j.status = "completed")
  ∧ (cj.attempts < 3 →
      (process_job db cj (Outcome.failure e)).results = db.results
      ∧ ∀ j ∈ (process_job db cj (Outcome.failure e)).jobs,
          j.id = cj.id → j.status = "pending")
  ∧ (3 ≤ cj.attempts →
      (process_job db cj (Outcome.failure e)).results
        = db.results ++ [{ job_id := cj.id, status := "failed", result := none, error := some e }]
      ∧ ∀ j ∈ (process_job db cj (Outcome.failure e)).jobs,
          j.id = cj.id → j.status = "failed") := by
  refine ⟨⟨?_, ?_⟩, fun h => ⟨?_, ?_⟩, fun h => ⟨?_, ?_⟩⟩
  · simp [process_job, complete_job]
  · intro j hj hid
    have hj' : j ∈ setJobStatus db.jobs cj.id "completed" := by
      simpa [process_job, complete_job] using hj
    exact status_of_mem_setJobStatus hj' hid
  · simp [process_job, retry_job, h]
  · intro j hj hid
    simp only [process_job, if_pos h, retry_job] at hj
    exact status_of_mem_setJobStatus hj hid
  · have h' : ¬ cj.attempts < 3 := not_lt.mpr h
    simp [process_job, complete_job, h']
  · have h' : ¬ cj.attempts < 3 := not_lt.mpr h
    intro j hj hid
    have hj' : j ∈ setJobStatus db.jobs cj.id "failed" := by
      simpa [process_job, complete_job, h'] using hj
    exact status_of_mem_setJobStatus hj' hid

/-- Witness for `c3_complete_branches`: the failure-with-retry branch at a
concrete state — results log unchanged, job back to `pending`. -/
theorem c3_complete_branches_witness :
    (process_job processingDB processingCJ (Outcome.failure "e")).results
        = processingDB.results
      ∧ ∀ j ∈ (process_job processingDB processingCJ (Outcome.failure "e")).jobs,
          j.id = processingCJ.id → j.status = "pending" :=
  (c3_complete_branches processingDB processingCJ none "e").2.1 (by decide)

/-- Claim C4.  With no row for `(jt, u)` present, the first `add_job` inserts
and returns the new id; after the stored job's status is moved to an
arbitrary value, a second `add_job` for the same key returns `None` (the
duplicate signal, not an error), changes nothing, and exactly one row with
that key is stored. -/
theorem c4_enqueue_dedup (db : DB) (jt u : String) (p1 p2 : Option String)
    (pr1 pr2 : Int) (t1 t2 : Nat) (s : String)
    (h : hasKey db.jobs jt u = false) :
    let r1 := add_job db jt u p1 pr1 t1
    let db1 : DB := { r1.2 with jobs := setJobStatus r1.2.jobs db.nextId s }
    let r2 := add_job db1 jt u p2 pr2 t2
    r1.1 = some db.nextId ∧ r2.1 = none ∧ r2.2 = db1 ∧
      countKey r2.2.jobs jt u = 1 := by
  intro r1 db1 r2
  have hr1 : r1 = add_job db jt u p1 pr1 t1 := rfl
  have hnew : hasKey db1.jobs jt u = true := by
    show hasKey (setJobStatus r1.2.jobs db.nextId s) jt u = true
    rw [hasKey_setJobStatus]
    have : r1.2.jobs = db.jobs ++
        [{ id := db.nextId, job_type := jt, url := u, params := p1,
           priority := pr1, created_at := t1, attempts := 0,
           last_attempt_at := none, status := "pending" }] := by
      rw [hr1]; simp [add_job, h]
    rw [this]
    unfold hasKey
    rw [List.any_append]
    simp
  refine ⟨?_, ?_, ?_, ?_⟩
  · rw [hr1]; simp [add_job, h]
  · show (add_job db1 jt u p2 pr2 t2).1 = none
    simp [add_job, hnew]
  · show (add_job db1 jt u p2 pr2 t2).2 = db1
    simp [add_job, hnew]
  · show countKey (add_job db1 jt u p2 pr2 t2).2.jobs jt u = 1
    have h2 : (add_job db1 jt u p2 pr2 t2).2 = db1 := by simp [add_job, hnew]
    rw [h2]
    show countKey (setJobStatus r1.2.jobs db.nextId s) jt u = 1
    rw [countKey_setJobStatus]
    have : r1.2.jobs = db.jobs ++
        [{ id := db.nextId, job_type := jt, url := u, params := p1,
           priority := pr1, created_at := t1, attempts := 0,
           last_attempt_at := none, status := "pending" }] := by
      rw [hr1]; simp [add_job, h]
    rw [this, countKey_append_hit _ _ _ _ (by simp),
        countKey_eq_zero_of_not_hasKey h]

/-- Witness for `c4_enqueue_dedup` at the empty database. -/
theorem c4_enqueue_dedup_witness :
    let r1 := add_job emptyDB "t" "u" none 5 0
    let db1 : DB := { r1.2 with jobs := setJobStatus r1.2.jobs emptyDB.nextId "completed" }
    let r2 := add_job db1 "t" "u" none 7 9
    r1.1 = some emptyDB.nextId ∧ r2.1 = none ∧ r2.2 = db1 ∧
      countKey r2.2.jobs "t" "u" = 1 :=
  c4_enqueue_dedup emptyDB "t" "u" none none 5 7 0 9 "completed" (by decide)

/-- Claim C5.  When at least one `pending` job with `attempts < 3` exists,
`get_next_job` returns an eligible stored job that has the maximal priority
among eligible jobs and, among eligible jobs of that priority, the earliest
`created_at`; the state change is exactly the `UPDATE` making that job
`processing` with `attempts + 1` and `last_attempt_at` set.  When no
eligible job exists it returns `None` and leaves the state untouched. -/
theorem c5_claim_next_spec (db : DB) (now : Nat) :
    ((∃ k ∈ db.jobs, eligible k = true) →
      ∃ j, selectJob db.jobs = some j ∧ j ∈ db.jobs ∧ eligible j = true ∧
        (∀ k ∈ db.jobs, eligible k = true →
          k.priority ≤ j.priority ∧
          (k.priority = j.priority → j.created_at ≤ k.created_at)) ∧
        get_next_job db now = (some (mkClaimed j), claimUpdate db j.id now))
  ∧ ((∀ k ∈ db.jobs, eligible k = false) → get_next_job db now = (none, db)) := by
  constructor
  · intro hex
    obtain ⟨j, hsel⟩ := selectJob_some_of_eligible hex
    obtain ⟨hmem, helig⟩ := selectJob_mem hsel
    refine ⟨j, hsel, hmem, helig, ?_, ?_⟩
    · intro k hk hek
      have hnot := selectJob_best hsel k hk hek
      unfold keyLt at hnot
      constructor
      · omega
      · intro hp
        omega
    · unfold get_next_job
      rw [hsel]
  · intro hall
    have hnone : selectJob db.jobs = none := by
      cases hs : selectJob db.jobs with
      | none => rfl
      | some j =>
          obtain ⟨hmem, helig⟩ := selectJob_mem hs
          rw [hall j hmem] at helig
          exact absurd helig (by simp)
    unfold get_next_job
    rw [hnone]

/-- Witness for `c5_claim_next_spec` on a queue with two eligible jobs of
different priorities. -/
theorem c5_claim_next_spec_witness :
    ∃ j, selectJob twoJobsDB.jobs = some j ∧ j ∈ twoJobsDB.jobs ∧
      eligible j = true ∧
      (∀ k ∈ twoJobsDB.jobs, eligible k = true →
        k.priority ≤ j.priority ∧
        (k.priority = j.priority → j.created_at ≤ k.created_at)) ∧
      get_next_job twoJobsDB 7 = (some (mkClaimed j), claimUpdate twoJobsDB j.id 7) :=
  (c5_claim_next_spec twoJobsDB 7).1 (by decide)

/-- Claim C6, counterexample.  `get_queue_stats` does not map `'completed'`
to the number of job rows with that status: it overwrites the entry with the
count of `'success'` rows in `job_results`.  In `statsDB` one job row is
`completed` but the results log is empty, so the reported count is 0. -/
theorem c6_stats_not_status_counts :
    ¬ (statsGet (get_queue_stats statsDB) "completed"
        = countStatus statsDB "completed") := by
  decide

/-- Claim C6, amended.  For every status other than `'completed'`, the stats
dict (read with default 0, as all consumers do) gives the number of job rows
with that status; the `'completed'` entry instead always carries the number
of `'success'` rows in the `job_results` log. -/
theorem c6_stats_spec (db : DB) (s : String) :
    statsGet (get_queue_stats db) s =
      if s = "completed" then successResults db else countStatus db s := by
  unfold get_queue_stats
  by_cases hs : s = "completed"
  · subst hs
    rw [if_pos rfl]
    exact statsGet_setStat_self _ _ _
  · rw [if_neg hs, statsGet_setStat_ne _ _ _ _ (fun he => hs he.symm),
        statsGet_baseStats]

/-- Claim C7, counterexample.  The whole body of `wait_if_needed` — the
sleep included — runs under the single shared mutex, so a call on domain `a`
that sleeps 5 ticks (entered at 105, last request at 100, delay 10) blocks a
concurrent call on the unrelated domain `b` arriving at 106: that caller
finishes at 110 instead of 106.  Different domains do impose mutual delay on
concurrent calls. -/
theorem c7_lock_blocks_other_domain :
    waitDone rl100 "b" 106 = 106 ∧
    lockedPairDone rl100 "a" "b" 105 106 = 110 ∧
    ¬ (lockedPairDone rl100 "a" "b" 105 106 = waitDone rl100 "b" 106) := by
  decide

/-- Claim C7, amended.  The rate-limiter *state* is per-domain: a completed
`wait_if_needed(d1)` neither changes `last_request_time[d2]` nor changes the
sleep any subsequent `wait_if_needed(d2)` computes.  (A concurrent call on
`d2` can still be blocked while the `d1` call holds the global lock through
its sleep, per `c7_lock_blocks_other_domain`.) -/
theorem c7_domains_state_independent (st : RL) (d1 d2 : String) (t tn : Nat)
    (h : d1 ≠ d2) :
    rlGet (wait_if_needed st d1 t).2.last_request_time d2
        = rlGet st.last_request_time d2
    ∧ (wait_if_needed (wait_if_needed st d1 t).2 d2 tn).1
        = (wait_if_needed st d2 tn).1 := by
  have hget : ∀ v, rlGet (rlSet st.last_request_time d1 v) d2
      = rlGet st.last_request_time d2 := by
    intro v
    unfold rlGet rlSet
    exact statsGet_setStat_ne _ _ _ _ h
  constructor
  · exact hget _
  · show (wait_if_needed
        { st with last_request_time := rlSet st.last_request_time d1 _ } d2 tn).1
      = (wait_if_needed st d2 tn).1
    unfold wait_if_needed
    simp only [hget]

/-- Witness for `c7_domains_state_independent` at a concrete limiter state. -/
theorem c7_domains_state_independent_witness :
    rlGet (wait_if_needed rl100 "a" 105).2.last_request_time "b"
        = rlGet rl100.last_request_time "b"
    ∧ (wait_if_needed (wait_if_needed rl100 "a" 105).2 "b" 111).1
        = (wait_if_needed rl100 "b" 111).1 :=
  c7_domains_state_independent rl100 "a" "b" 105 111 (by decide)

/-- Claim C8, counterexample.  `Scraper.fetch` returns the same `None` for a
404 as for exhausted retries: the "NotFound" outcome is not distinct from
the "Failed" outcome in the value the caller receives (the all-timeout
transport really exhausts all 3 attempts before its `None`). -/
theorem c8_notfound_equals_failed :
    (fetch tr404 3).1 = none ∧ (fetch trTimeout 3).1 = none ∧
    (fetch trTimeout 3).2.1 = 3 ∧
    (fetch tr404 3).1 = (fetch trTimeout 3).1 := by
  decide

/-- Claim C8, amended.  When the first attempt yields HTTP 404, `fetch`
returns `None` after exactly one attempt with no backoff sleep — but that
`None` is the same value used for the exhausted-retries failure. -/
theorem c8_notfound_one_attempt (transport : Nat → FetchStep) (n : Nat)
    (h : transport 0 = FetchStep.httpError 404) :
    fetch transport (n + 1) = (none, 1, []) := by
  unfold fetch
  simp [fetchFrom, h]

/-- Witness for `c8_notfound_one_attempt`: the all-404 transport at
`max_retries = 3`. -/
theorem c8_notfound_one_attempt_witness :
    fetch tr404 3 = (none, 1, []) :=
  c8_notfound_one_attempt tr404 2 rfl

/-- Claim C9.  `reset_stuck_jobs` rewrites, position by position: a
`processing` row becomes `pending` (its `last_attempt_at` cleared), any
other row is untouched, and every row keeps its `attempts` count. -/
theorem c9_reset_stuck (db : DB) (i : Nat) (h : i < db.jobs.length)
    (h2 : i < (reset_stuck_jobs db).jobs.length) :
    ((db.jobs.get ⟨i, h⟩).status = "processing" →
      (reset_stuck_jobs db).jobs.get ⟨i, h2⟩ =
        { db.jobs.get ⟨i, h⟩ with status := "pending", last_attempt_at := none })
  ∧ ((db.jobs.get ⟨i, h⟩).status ≠ "processing" →
      (reset_stuck_jobs db).jobs.get ⟨i, h2⟩ = db.jobs.get ⟨i, h⟩)
  ∧ ((reset_stuck_jobs db).jobs.get ⟨i, h2⟩).attempts
      = (db.jobs.get ⟨i, h⟩).attempts := by
  have hg : (reset_stuck_jobs db).jobs.get ⟨i, h2⟩ =
      if (db.jobs.get ⟨i, h⟩).status = "processing" then
        { db.jobs.get ⟨i, h⟩ with status := "pending", last_attempt_at := none }
      else db.jobs.get ⟨i, h⟩ := by
    show (reset_stuck_jobs db).jobs[i] = _
    unfold reset_stuck_jobs
    simp only [List.getElem_map, List.get_eq_getElem]
  rw [hg]
  by_cases hs : (db.jobs.get ⟨i, h⟩).status = "processing"
  · rw [if_pos hs]
    exact ⟨fun _ => rfl, fun hns => absurd hs hns, rfl⟩
  · rw [if_neg hs]
    exact ⟨fun hps => absurd hps hs, fun _ => rfl, rfl⟩

/-- Witness for `c9_reset_stuck`: the `processing` row of `fourJobsDB`. -/
theorem c9_reset_stuck_witness :
    (reset_stuck_jobs fourJobsDB).jobs.get ⟨0, by decide⟩ =
      { fourJobsDB.jobs.get ⟨0, by decide⟩ with
          status := "pending", last_attempt_at := none } :=
  (c9_reset_stuck fourJobsDB 0 (by decide) (by decide)).1 (by decide)

/-- Claim C10.  The record a successful claim returns carries the
pre-increment `attempts` snapshot: once the claim commits, the stored row
with that id holds `attempts = returned.attempts + 1` (and when ids are
unique — the PRIMARY KEY invariant — every stored row with that id does). -/
theorem c10_returned_attempts (db : DB) (now : Nat) (cj : ClaimedJob)
    (db2 : DB) (h : get_next_job db now = (some cj, db2)) :
    (∃ j ∈ db2.jobs, j.id = cj.id ∧ j.status = "processing"
        ∧ j.attempts = cj.attempts + 1)
  ∧ ((db.jobs.map fun j => j.id).Nodup →
      ∀ j ∈ db2.jobs, j.id = cj.id → j.attempts = cj.attempts + 1) := by
  unfold get_next_job at h
  cases hsel : selectJob db.jobs with
  | none =>
      rw [hsel] at h
      exact absurd h (by simp)
  | some j0 =>
      rw [hsel] at h
      have h1 : some (mkClaimed j0) = some cj := congrArg Prod.fst h
      have h2 : claimUpdate db j0.id now = db2 := congrArg Prod.snd h
      have hcj : mkClaimed j0 = cj := Option.some.inj h1
      obtain ⟨hj0mem, _⟩ := selectJob_mem hsel
      subst hcj
      subst h2
      constructor
      · have hmem2 : ({ j0 with status := "processing", attempts := j0.attempts + 1, last_attempt_at := some now } : Job) ∈
              (claimUpdate db j0.id now).jobs := by
          unfold claimUpdate
          have hmm := List.mem_map_of_mem (fun k => if k.id = j0.id then { k with status := "processing", attempts := k.attempts + 1, last_attempt_at := some now } else k) hj0mem
          simpa using hmm
        exact ⟨_, hmem2, rfl, rfl, rfl⟩
      · intro hnodup j hj hid
        unfold claimUpdate at hj
        obtain ⟨k, hk, hfk⟩ := List.mem_map.mp hj
        by_cases hkid : k.id = j0.id
        · have hkj0 : k = j0 :=
            List.inj_on_of_nodup_map hnodup hk hj0mem hkid
          rw [if_pos hkid] at hfk
          rw [← hfk, hkj0]
          rfl
        · rw [if_neg hkid] at hfk
          rw [← hfk] at hid
          exact absurd hid hkid

/-- Witness for `c10_returned_attempts`: the claim of job 2 in
`twoJobsDB`. -/
theorem c10_returned_attempts_witness :
    (∃ j ∈ twoJobsClaimed.jobs, j.id = twoJobsCJ.id ∧ j.status = "processing"
        ∧ j.attempts = twoJobsCJ.attempts + 1)
  ∧ ((twoJobsDB.jobs.map fun j => j.id).Nodup →
      ∀ j ∈ twoJobsClaimed.jobs, j.id = twoJobsCJ.id →
        j.attempts = twoJobsCJ.attempts + 1) :=
  c10_returned_attempts twoJobsDB 7 twoJobsCJ twoJobsClaimed (by decide)

end ForkTheLaw
